import Mathlib

/-
Shallow embedding of flytekit's local task cache (src/flytekit/core/local_cache.py)
and the async agent executor mixin (src/flytekit/extend/backend/mixins.py),
with theorems about fingerprinting, cache semantics, the poll loop,
output fallback, failure reporting, cancellation and input conversion.
-/

namespace Flytekit

/-- The payload of a Scalar literal: either an opaque primitive value, or a
protobuf Struct (the generic scalar), which is a list of named fields.
Struct field values are kept opaque as strings. -/
inductive ScalarValue where
  | prim (value : String)
  | struct (fields : List (String × String))
deriving DecidableEq

/-- A flytekit Literal (flytekit.models.literals.Literal): a scalar, a
collection of literals, or a string-keyed map of literals; any of these may
carry a precomputed hash tag. A literal constructed as Literal(hash=h)
carries only the hash (constructor hashOnly). -/
inductive Literal where
  | scalar (value : ScalarValue) (hash : Option String)
  | collection (literals : List Literal) (hash : Option String)
  | map (literals : List (String × Literal)) (hash : Option String)
  | hashOnly (hash : String)

/-- A LiteralMap: mapping from parameter name to Literal, as an association list. -/
abbrev LiteralMap := List (String × Literal)

mutual

/-- Embeds local_cache._recursive_hash_placement: if the literal is a
collection, rebuild it from recursively processed children (the rebuilt node
carries no hash); likewise for a map; otherwise (base case) if the literal
carries a hash, return a literal holding only that hash, else return the
literal unchanged. -/
def _recursive_hash_placement : Literal → Literal
  | .collection ls _ => .collection (placeList ls) none
  | .map es _ => .map (placeEntries es) none
  | .scalar v h =>
    match h with
    | some hh => .hashOnly hh
    | none => .scalar v none
  | .hashOnly h => .hashOnly h

/-- _recursive_hash_placement mapped over the literals of a collection. -/
def placeList : List Literal → List Literal
  | [] => []
  | l :: ls => _recursive_hash_placement l :: placeList ls

/-- _recursive_hash_placement mapped over the entries of a literal map. -/
def placeEntries : List (String × Literal) → List (String × Literal)
  | [] => []
  | (k, l) :: es => (k, _recursive_hash_placement l) :: placeEntries es

end

/-- Serialization of an optional hash tag, part of the structural hash. -/
def serializeOpt : Option String → String
  | none => "N"
  | some s => "J(" ++ s ++ ")"

/-- Serialization of a Struct field list in the order given. -/
def serializeFields : List (String × String) → String
  | [] => ""
  | (k, v) :: fs => "f(" ++ k ++ "," ++ v ++ ")" ++ serializeFields fs

/-- Lexicographic code-point order on strings viewed as character lists: the
order by which Python compares strings when sorting Struct field items. -/
def lexLt : List Char → List Char → Bool
  | [], [] => false
  | [], _ :: _ => true
  | _ :: _, [] => false
  | c :: cs, d :: ds => if c = d then lexLt cs ds else decide (c < d)

theorem lexLt_irrefl : ∀ l : List Char, lexLt l l = false
  | [] => rfl
  | c :: cs => by simp [lexLt, lexLt_irrefl cs]

theorem lexLt_trans : ∀ (a b c : List Char),
    lexLt a b = true → lexLt b c = true → lexLt a c = true
  | [], [], _, hab, _ => by simp [lexLt] at hab
  | [], _ :: _, [], _, hbc => by simp [lexLt] at hbc
  | [], _ :: _, _ :: _, _, _ => rfl
  | _ :: _, [], _, hab, _ => by simp [lexLt] at hab
  | _ :: _, _ :: _, [], _, hbc => by simp [lexLt] at hbc
  | a :: as, b :: bs, c :: cs, hab, hbc => by
    by_cases hab1 : a = b
    · subst hab1
      by_cases hbc1 : a = c
      · subst hbc1
        simp only [lexLt, if_pos rfl] at hab hbc ⊢
        exact lexLt_trans as bs cs hab hbc
      · simp only [lexLt, if_neg hbc1] at hbc ⊢
        exact hbc
    · by_cases hbc1 : b = c
      · subst hbc1
        simp only [lexLt, if_neg hab1] at hab ⊢
        exact hab
      · simp only [lexLt, if_neg hab1, if_neg hbc1, decide_eq_true_eq] at hab hbc
        have hac : a < c := lt_trans hab hbc
        simp [lexLt, ne_of_lt hac, hac]

theorem lexLt_asymm (a b : List Char) (h : lexLt a b = true) : lexLt b a = false := by
  by_contra hc
  rw [Bool.not_eq_false] at hc
  have := lexLt_trans a b a h hc
  rw [lexLt_irrefl] at this
  exact Bool.false_ne_true this

theorem lexLt_connex : ∀ (a b : List Char),
    lexLt a b = false → lexLt b a = false → a = b
  | [], [], _, _ => rfl
  | [], _ :: _, hab, _ => by simp [lexLt] at hab
  | _ :: _, [], _, hba => by simp [lexLt] at hba
  | a :: as, b :: bs, hab, hba => by
    by_cases h : a = b
    · subst h
      simp only [lexLt, if_pos rfl] at hab hba
      rw [lexLt_connex as bs hab hba]
    · simp only [lexLt, if_neg h, if_neg (Ne.symm h), decide_eq_false_iff_not] at hab hba
      rcases lt_or_gt_of_ne h with hlt | hgt
      · exact absurd hlt hab
      · exact absurd hgt hba

/-- String comparison used for sorting: lexicographic on the character list. -/
def strLt (s t : String) : Bool := lexLt s.data t.data

theorem strLt_irrefl (s : String) : strLt s s = false := lexLt_irrefl s.data

theorem strLt_trans {a b c : String} (hab : strLt a b = true) (hbc : strLt b c = true) :
    strLt a c = true := lexLt_trans a.data b.data c.data hab hbc

theorem strLt_asymm {a b : String} (h : strLt a b = true) : strLt b a = false :=
  lexLt_asymm a.data b.data h

theorem strLt_connex {a b : String} (hab : strLt a b = false) (hba : strLt b a = false) :
    a = b := by
  have hd := lexLt_connex a.data b.data hab hba
  cases a
  cases b
  exact congrArg String.mk hd

/-- The order in which Python sorted() arranges Struct field items
(key, value): lexicographic on the pair. -/
def fieldLeB (a b : String × String) : Bool :=
  strLt a.1 b.1 || (a.1 == b.1 && (strLt a.2 b.2 || a.2 == b.2))

/-- fieldLeB as a relation. -/
def fieldLe (a b : String × String) : Prop := fieldLeB a b = true

instance : DecidableRel fieldLe := fun a b =>
  inferInstanceAs (Decidable (fieldLeB a b = true))

theorem fieldLe_iff (a b : String × String) :
    fieldLe a b ↔
      strLt a.1 b.1 = true ∨ (a.1 = b.1 ∧ (strLt a.2 b.2 = true ∨ a.2 = b.2)) := by
  simp [fieldLe, fieldLeB, Bool.or_eq_true, Bool.and_eq_true, beq_iff_eq]

instance : IsTotal (String × String) fieldLe where
  total a b := by
    rw [fieldLe_iff, fieldLe_iff]
    by_cases h1 : strLt a.1 b.1 = true
    · exact Or.inl (Or.inl h1)
    · by_cases h2 : strLt b.1 a.1 = true
      · exact Or.inr (Or.inl h2)
      · have h1f : strLt a.1 b.1 = false := by simpa using h1
        have h2f : strLt b.1 a.1 = false := by simpa using h2
        have heq : a.1 = b.1 := strLt_connex h1f h2f
        by_cases h3 : strLt a.2 b.2 = true
        · exact Or.inl (Or.inr ⟨heq, Or.inl h3⟩)
        · by_cases h4 : strLt b.2 a.2 = true
          · exact Or.inr (Or.inr ⟨heq.symm, Or.inl h4⟩)
          · have h3f : strLt a.2 b.2 = false := by simpa using h3
            have h4f : strLt b.2 a.2 = false := by simpa using h4
            exact Or.inl (Or.inr ⟨heq, Or.inr (strLt_connex h3f h4f)⟩)

instance : IsTrans (String × String) fieldLe where
  trans a b c hab hbc := by
    rw [fieldLe_iff] at hab hbc ⊢
    rcases hab with h1 | ⟨h1, h1v⟩
    · rcases hbc with h2 | ⟨h2, _⟩
      · exact Or.inl (strLt_trans h1 h2)
      · exact Or.inl (h2 ▸ h1)
    · rcases hbc with h2 | ⟨h2, h2v⟩
      · exact Or.inl (h1 ▸ h2)
      · refine Or.inr ⟨h1.trans h2, ?_⟩
        rcases h1v with hv1 | hv1
        · rcases h2v with hv2 | hv2
          · exact Or.inl (strLt_trans hv1 hv2)
          · exact Or.inl (hv2 ▸ hv1)
        · rcases h2v with hv2 | hv2
          · exact Or.inl (hv1 ▸ hv2)
          · exact Or.inr (hv1.trans hv2)

instance : IsAntisymm (String × String) fieldLe where
  antisymm a b hab hba := by
    rw [fieldLe_iff] at hab hba
    rcases hab with h1 | ⟨h1, h1v⟩
    · rcases hba with h2 | ⟨h2, _⟩
      · exact absurd (strLt_asymm h1) (by simp [h2])
      · exact absurd h1 (by simp [h2, strLt_irrefl])
    · rcases hba with h2 | ⟨h2, h2v⟩
      · exact absurd h2 (by simp [h1, strLt_irrefl])
      · rcases h1v with hv1 | hv1
        · rcases h2v with hv2 | hv2
          · exact absurd (strLt_asymm hv1) (by simp [hv2])
          · exact absurd hv1 (by simp [hv2, strLt_irrefl])
        · exact Prod.ext h1 hv1

/-- The canonical (sorted) arrangement of Struct fields used by
ProtoJoblibHasher.save, which hashes dict(sorted(obj.fields.items())). -/
def sortedStructFields (fs : List (String × String)) : List (String × String) :=
  List.insertionSort fieldLe fs

/-- Serialization of a scalar payload by the hasher. A protobuf Struct is
rewritten (ProtoJoblibHasher.save) to a dictionary tagged with the rewrite
rule, its class, and its fields in sorted order, before being fed to the
underlying hasher. -/
def serializeScalar : ScalarValue → String
  | .prim s => "p(" ++ s ++ ")"
  | .struct fs =>
    "g(rewrite_rule=google.protobuf.struct_pb2.Struct,cls=Struct,obj=("
      ++ serializeFields (sortedStructFields fs) ++ "))"

mutual

/-- The stable structural serialization of a Literal performed by the
joblib-based hasher: every field of the object (payload and hash tag)
contributes to the digest. -/
def serializeLiteral : Literal → String
  | .scalar v h => "sc(" ++ serializeScalar v ++ "," ++ serializeOpt h ++ ")"
  | .collection ls h => "co(" ++ serializeLiterals ls ++ "," ++ serializeOpt h ++ ")"
  | .map es h => "mp(" ++ serializeEntries es ++ "," ++ serializeOpt h ++ ")"
  | .hashOnly h => "ho(" ++ h ++ ")"

/-- Serialization of a list of literals, elementwise. -/
def serializeLiterals : List Literal → String
  | [] => ""
  | l :: ls => "e(" ++ serializeLiteral l ++ ")" ++ serializeLiterals ls

/-- Serialization of literal-map entries in the order given. -/
def serializeEntries : List (String × Literal) → String
  | [] => ""
  | (k, l) :: es => "k(" ++ k ++ "=" ++ serializeLiteral l ++ ")" ++ serializeEntries es

end

/-- The digest ProtoJoblibHasher().hash computes over the overridden literal
map: a stable function of the structural serialization. -/
def ProtoJoblibHasher_hash (es : List (String × Literal)) : String :=
  "h(" ++ serializeEntries es ++ ")"

/-- Embeds local_cache._calculate_cache_key: run _recursive_hash_placement
over every entry of the input literal map, hash the overridden map with
ProtoJoblibHasher, and join task name, cache version and digest with
hyphens. -/
def _calculate_cache_key (task_name : String) (cache_version : String)
    (input_literal_map : LiteralMap) : String :=
  let literal_map_overridden := placeEntries input_literal_map
  let hashed_inputs := ProtoJoblibHasher_hash literal_map_overridden
  task_name ++ "-" ++ cache_version ++ "-" ++ hashed_inputs

mutual

/-- Two literals that agree everywhere except possibly in the payloads of
scalar nodes carrying the same precomputed hash tag: the children shadowed
by a scalar hash tag may differ, everything else must be equal. -/
def hashShadowEq : Literal → Literal → Bool
  | .scalar _ (some a), .scalar _ (some b) => a == b
  | .scalar v1 none, .scalar v2 none => decide (v1 = v2)
  | .collection ls1 o1, .collection ls2 o2 => decide (o1 = o2) && hashShadowEqList ls1 ls2
  | .map es1 o1, .map es2 o2 => decide (o1 = o2) && hashShadowEqEntries es1 es2
  | .hashOnly a, .hashOnly b => a == b
  | _, _ => false

/-- hashShadowEq, elementwise on collection children. -/
def hashShadowEqList : List Literal → List Literal → Bool
  | [], [] => true
  | l1 :: t1, l2 :: t2 => hashShadowEq l1 l2 && hashShadowEqList t1 t2
  | _, _ => false

/-- hashShadowEq, elementwise on map entries (keys must be equal). -/
def hashShadowEqEntries : List (String × Literal) → List (String × Literal) → Bool
  | [], [] => true
  | (k1, l1) :: t1, (k2, l2) :: t2 => (k1 == k2) && hashShadowEq l1 l2 && hashShadowEqEntries t1 t2
  | _, _ => false

end

mutual

theorem hashShadowEq_place : ∀ (l1 l2 : Literal), hashShadowEq l1 l2 = true →
    _recursive_hash_placement l1 = _recursive_hash_placement l2
  | .scalar v1 (some a), .scalar v2 (some b), h => by
    have hab : a = b := eq_of_beq h
    simp [_recursive_hash_placement, hab]
  | .scalar v1 none, .scalar v2 none, h => by
    have hv : v1 = v2 := of_decide_eq_true h
    simp [_recursive_hash_placement, hv]
  | .collection ls1 o1, .collection ls2 o2, h => by
    have h2 : (decide (o1 = o2) && hashShadowEqList ls1 ls2) = true := h
    rw [Bool.and_eq_true] at h2
    simp [_recursive_hash_placement, hashShadowEqList_place ls1 ls2 h2.2]
  | .map es1 o1, .map es2 o2, h => by
    have h2 : (decide (o1 = o2) && hashShadowEqEntries es1 es2) = true := h
    rw [Bool.and_eq_true] at h2
    simp [_recursive_hash_placement, hashShadowEqEntries_place es1 es2 h2.2]
  | .hashOnly a, .hashOnly b, h => by
    have hab : a = b := eq_of_beq h
    simp [_recursive_hash_placement, hab]
  | .scalar _ (some _), .scalar _ none, h => Bool.noConfusion h
  | .scalar _ none, .scalar _ (some _), h => Bool.noConfusion h
  | .scalar _ (some _), .collection _ _, h => Bool.noConfusion h
  | .scalar _ none, .collection _ _, h => Bool.noConfusion h
  | .scalar _ (some _), .map _ _, h => Bool.noConfusion h
  | .scalar _ none, .map _ _, h => Bool.noConfusion h
  | .scalar _ (some _), .hashOnly _, h => Bool.noConfusion h
  | .scalar _ none, .hashOnly _, h => Bool.noConfusion h
  | .collection _ _, .scalar _ _, h => Bool.noConfusion h
  | .collection _ _, .map _ _, h => Bool.noConfusion h
  | .collection _ _, .hashOnly _, h => Bool.noConfusion h
  | .map _ _, .scalar _ _, h => Bool.noConfusion h
  | .map _ _, .collection _ _, h => Bool.noConfusion h
  | .map _ _, .hashOnly _, h => Bool.noConfusion h
  | .hashOnly _, .scalar _ _, h => Bool.noConfusion h
  | .hashOnly _, .collection _ _, h => Bool.noConfusion h
  | .hashOnly _, .map _ _, h => Bool.noConfusion h

theorem hashShadowEqList_place : ∀ (ls1 ls2 : List Literal),
    hashShadowEqList ls1 ls2 = true → placeList ls1 = placeList ls2
  | [], [], _ => rfl
  | [], _ :: _, h => Bool.noConfusion h
  | _ :: _, [], h => Bool.noConfusion h
  | l1 :: t1, l2 :: t2, h => by
    have h2 : (hashShadowEq l1 l2 && hashShadowEqList t1 t2) = true := h
    rw [Bool.and_eq_true] at h2
    simp [placeList, hashShadowEq_place l1 l2 h2.1, hashShadowEqList_place t1 t2 h2.2]

theorem hashShadowEqEntries_place : ∀ (es1 es2 : List (String × Literal)),
    hashShadowEqEntries es1 es2 = true → placeEntries es1 = placeEntries es2
  | [], [], _ => rfl
  | [], _ :: _, h => Bool.noConfusion h
  | _ :: _, [], h => Bool.noConfusion h
  | (k1, l1) :: t1, (k2, l2) :: t2, h => by
    have h2 : (((k1 == k2) && hashShadowEq l1 l2) && hashShadowEqEntries t1 t2) = true := h
    rw [Bool.and_eq_true, Bool.and_eq_true] at h2
    have hk : k1 = k2 := eq_of_beq h2.1.1
    simp [placeEntries, hk, hashShadowEq_place l1 l2 h2.1.2, hashShadowEqEntries_place t1 t2 h2.2]

end

theorem placeEntries_append : ∀ (a b : List (String × Literal)),
    placeEntries (a ++ b) = placeEntries a ++ placeEntries b
  | [], _ => rfl
  | (k, l) :: t, b => by simp [placeEntries, placeEntries_append t b]

theorem serializeEntries_append : ∀ (a b : List (String × Literal)),
    serializeEntries (a ++ b) = serializeEntries a ++ serializeEntries b
  | [], b => by simp [serializeEntries]
  | (k, l) :: t, b => by
    simp [serializeEntries, serializeEntries_append t b, String.append_assoc]

theorem sortedStructFields_perm_eq {fs1 fs2 : List (String × String)} (hp : fs1.Perm fs2) :
    sortedStructFields fs1 = sortedStructFields fs2 := by
  have hs1 : List.Sorted fieldLe (sortedStructFields fs1) := List.sorted_insertionSort fieldLe fs1
  have hs2 : List.Sorted fieldLe (sortedStructFields fs2) := List.sorted_insertionSort fieldLe fs2
  have hperm : (sortedStructFields fs1).Perm (sortedStructFields fs2) :=
    (List.perm_insertionSort fieldLe fs1).trans
      (hp.trans (List.perm_insertionSort fieldLe fs2).symm)
  exact List.eq_of_perm_of_sorted hperm hs1 hs2

/-- The state of the LocalTaskCache singleton: the flag named _initialized
in the source, and the contents of the diskcache store rooted at
CACHE_LOCATION. The disk contents persist whether or not the in-process
handle has been opened. -/
structure LocalTaskCacheState where
  isInit : Bool
  store : List (String × LiteralMap)

/-- Embeds LocalTaskCache.initialize: open the Cache at CACHE_LOCATION
(whose persisted contents are unaffected) and set the _initialized flag. -/
def LocalTaskCache.initCache (s : LocalTaskCacheState) : LocalTaskCacheState :=
  { s with isInit := true }

/-- The lazy-initialization guard shared by clear, get and set: if the
_initialized flag is not set, initialize first. -/
def LocalTaskCache.ensureInit (s : LocalTaskCacheState) : LocalTaskCacheState :=
  if s.isInit then s else LocalTaskCache.initCache s

/-- Embeds LocalTaskCache.clear: lazily initialize, then empty the store. -/
def LocalTaskCache.clear (s : LocalTaskCacheState) : LocalTaskCacheState :=
  let s := LocalTaskCache.ensureInit s
  { s with store := [] }

/-- Embeds LocalTaskCache.get: lazily initialize, then look up the
calculated cache key; diskcache Cache.get returns the default None when the
key is absent. Returns the updated state and the lookup result. -/
def LocalTaskCache.get (s : LocalTaskCacheState) (task_name cache_version : String)
    (input_literal_map : LiteralMap) : LocalTaskCacheState × Option LiteralMap :=
  let s := LocalTaskCache.ensureInit s
  (s, List.lookup (_calculate_cache_key task_name cache_version input_literal_map) s.store)

/-- Embeds LocalTaskCache.set: lazily initialize, then diskcache Cache.add,
which inserts only if the key is not already present (a second add to the
same key is a no-op returning False, never an overwrite). -/
def LocalTaskCache.set (s : LocalTaskCacheState) (task_name cache_version : String)
    (input_literal_map : LiteralMap) (value : LiteralMap) : LocalTaskCacheState :=
  let s := LocalTaskCache.ensureInit s
  let key := _calculate_cache_key task_name cache_version input_literal_map
  if (List.lookup key s.store).isSome then s
  else { s with store := (key, value) :: s.store }

theorem ensureInit_store (s : LocalTaskCacheState) :
    (LocalTaskCache.ensureInit s).store = s.store := by
  unfold LocalTaskCache.ensureInit LocalTaskCache.initCache
  split <;> rfl

theorem ensureInit_isInit (s : LocalTaskCacheState) :
    (LocalTaskCache.ensureInit s).isInit = true := by
  unfold LocalTaskCache.ensureInit LocalTaskCache.initCache
  split
  · assumption
  · rfl

theorem set_store (s : LocalTaskCacheState) (tn cv : String) (m v : LiteralMap) :
    (LocalTaskCache.set s tn cv m v).store =
      if (List.lookup (_calculate_cache_key tn cv m) s.store).isSome then s.store
      else (_calculate_cache_key tn cv m, v) :: s.store := by
  unfold LocalTaskCache.set
  by_cases hc : (List.lookup (_calculate_cache_key tn cv m) s.store).isSome
  · simp [ensureInit_store, hc]
  · simp [ensureInit_store, hc]

theorem get_snd (s : LocalTaskCacheState) (tn cv : String) (m : LiteralMap) :
    (LocalTaskCache.get s tn cv m).2 =
      List.lookup (_calculate_cache_key tn cv m) s.store := by
  simp [LocalTaskCache.get, ensureInit_store]

/-- C1, counterexample: a Collection node carrying a precomputed hash tag is
not replaced by a hash-only leaf; _recursive_hash_placement descends into its
children and drops the hash, so two inputs that differ only in the children
of the hash-tagged collection node get different cache keys. -/
theorem c1_collection_hash_counterexample :
    _recursive_hash_placement
        (Literal.collection [Literal.scalar (ScalarValue.prim "a") none] (some "h"))
      = Literal.collection [Literal.scalar (ScalarValue.prim "a") none] none
    ∧ _calculate_cache_key "t" "1"
        [("x", Literal.collection [Literal.scalar (ScalarValue.prim "a") none] (some "h"))]
      ≠ _calculate_cache_key "t" "1"
        [("x", Literal.collection [Literal.scalar (ScalarValue.prim "b") none] (some "h"))] :=
  ⟨rfl, by decide⟩

/-- C1 (amended): only base nodes (scalars) carrying a precomputed hash are
replaced by a leaf containing only the hash; Collection and Mapping nodes are
always recursed into (their own hash tag is discarded). Consequently two
input maps that agree except in the payloads of scalar nodes carrying the
same hash tag (the relation hashShadowEqEntries) produce identical cache
keys. -/
theorem c1_scalar_hash_shortcircuit (task_name cache_version : String)
    (m1 m2 : LiteralMap) (h : hashShadowEqEntries m1 m2 = true) :
    _calculate_cache_key task_name cache_version m1
      = _calculate_cache_key task_name cache_version m2 := by
  unfold _calculate_cache_key
  rw [hashShadowEqEntries_place m1 m2 h]

/-- C1 witness: two single-entry maps whose scalar payloads differ under the
same hash tag have equal cache keys. -/
theorem c1_scalar_hash_shortcircuit_witness :
    hashShadowEqEntries [("x", Literal.scalar (ScalarValue.prim "a") (some "h"))]
        [("x", Literal.scalar (ScalarValue.prim "b") (some "h"))] = true
    ∧ _calculate_cache_key "t" "1" [("x", Literal.scalar (ScalarValue.prim "a") (some "h"))]
      = _calculate_cache_key "t" "1" [("x", Literal.scalar (ScalarValue.prim "b") (some "h"))] :=
  ⟨by decide, c1_scalar_hash_shortcircuit "t" "1"
    [("x", Literal.scalar (ScalarValue.prim "a") (some "h"))]
    [("x", Literal.scalar (ScalarValue.prim "b") (some "h"))] (by decide)⟩

/-- C6: from a state in which the key is unwritten, set followed by set is
accepted (the model is total, as diskcache add never raises) and a
subsequent get returns the stored value; moreover a second set to an
already-written key is a no-op that leaves the store unchanged. -/
theorem c6_cache_set_idempotent (s : LocalTaskCacheState) (tn cv : String)
    (m v : LiteralMap)
    (h : List.lookup (_calculate_cache_key tn cv m) s.store = none) :
    (LocalTaskCache.get
        (LocalTaskCache.set (LocalTaskCache.set s tn cv m v) tn cv m v) tn cv m).2 = some v
    ∧ ∀ (s2 : LocalTaskCacheState) (w : LiteralMap),
        List.lookup (_calculate_cache_key tn cv m) s2.store = some w →
        (LocalTaskCache.set s2 tn cv m v).store = s2.store := by
  constructor
  · have h1 : (LocalTaskCache.set s tn cv m v).store
        = (_calculate_cache_key tn cv m, v) :: s.store := by
      rw [set_store, h]
      simp
    have h2 : (LocalTaskCache.set (LocalTaskCache.set s tn cv m v) tn cv m v).store
        = (_calculate_cache_key tn cv m, v) :: s.store := by
      rw [set_store, h1]
      simp [List.lookup]
    rw [get_snd, h2]
    simp [List.lookup]
  · intro s2 w hw
    rw [set_store, hw]
    simp

/-- C6 witness: set twice then get on a fresh store returns the stored
output map. -/
theorem c6_cache_set_idempotent_witness :
    (LocalTaskCache.get
        (LocalTaskCache.set
          (LocalTaskCache.set ⟨false, []⟩ "t" "1" []
            [("o", Literal.scalar (ScalarValue.prim "7") none)])
          "t" "1" [] [("o", Literal.scalar (ScalarValue.prim "7") none)])
        "t" "1" []).2
      = some [("o", Literal.scalar (ScalarValue.prim "7") none)]
    ∧ ∀ (s2 : LocalTaskCacheState) (w : LiteralMap),
        List.lookup (_calculate_cache_key "t" "1" []) s2.store = some w →
        (LocalTaskCache.set s2 "t" "1" []
          [("o", Literal.scalar (ScalarValue.prim "7") none)]).store = s2.store :=
  c6_cache_set_idempotent ⟨false, []⟩ "t" "1" []
    [("o", Literal.scalar (ScalarValue.prim "7") none)] rfl

/-- C7: cache keys are invariant under reordering the fields of a protobuf
Struct scalar: ProtoJoblibHasher.save hashes Struct fields in sorted order,
so any permutation of the field list of one struct-valued entry, in any
position of the input map, leaves the key unchanged. -/
theorem c7_struct_field_order_invariance (task_name cache_version k : String)
    (pre post : LiteralMap) (fs1 fs2 : List (String × String)) (hp : fs1.Perm fs2) :
    _calculate_cache_key task_name cache_version
        (pre ++ (k, Literal.scalar (ScalarValue.struct fs1) none) :: post)
      = _calculate_cache_key task_name cache_version
        (pre ++ (k, Literal.scalar (ScalarValue.struct fs2) none) :: post) := by
  unfold _calculate_cache_key ProtoJoblibHasher_hash
  rw [placeEntries_append, placeEntries_append]
  simp only [placeEntries, _recursive_hash_placement]
  rw [serializeEntries_append, serializeEntries_append]
  simp only [serializeEntries, serializeLiteral, serializeScalar]
  rw [sortedStructFields_perm_eq hp]

/-- C7 witness: the fields (a, 1), (b, 2) in either order give the same
cache key. -/
theorem c7_struct_field_order_invariance_witness :
    _calculate_cache_key "t" "1"
        [("x", Literal.scalar (ScalarValue.struct [("a", "1"), ("b", "2")]) none)]
      = _calculate_cache_key "t" "1"
        [("x", Literal.scalar (ScalarValue.struct [("b", "2"), ("a", "1")]) none)] :=
  c7_struct_field_order_invariance "t" "1" "x" [] []
    [("a", "1"), ("b", "2")] [("b", "2"), ("a", "1")] (by decide)

/-- C8: get on a key that was never written returns none (absent), not an
error, even when no operation has initialized the store yet; the get leaves
the state initialized, and clear is safe as the very first operation,
leaving an initialized empty store. -/
theorem c8_get_absent_and_clear_safe (s : LocalTaskCacheState) (tn cv : String)
    (m : LiteralMap)
    (h : List.lookup (_calculate_cache_key tn cv m) s.store = none) :
    (LocalTaskCache.get s tn cv m).2 = none
    ∧ (LocalTaskCache.get s tn cv m).1.isInit = true
    ∧ (LocalTaskCache.clear s).isInit = true
    ∧ (LocalTaskCache.clear s).store = [] := by
  refine ⟨?_, ?_, ?_, ?_⟩
  · rw [get_snd]
    exact h
  · simp [LocalTaskCache.get, ensureInit_isInit]
  · simp [LocalTaskCache.clear, ensureInit_isInit]
  · simp [LocalTaskCache.clear]

/-- C8 witness: on a never-initialized state whose disk store holds an
unrelated entry, get of an unseen key returns none, and clear works. -/
theorem c8_get_absent_and_clear_safe_witness :
    (LocalTaskCache.get ⟨false, [("zzz", [])]⟩ "t" "1" []).2 = none
    ∧ (LocalTaskCache.get ⟨false, [("zzz", [])]⟩ "t" "1" []).1.isInit = true
    ∧ (LocalTaskCache.clear ⟨false, [("zzz", [])]⟩).isInit = true
    ∧ (LocalTaskCache.clear ⟨false, [("zzz", [])]⟩).store = [] :=
  c8_get_absent_and_clear_safe ⟨false, [("zzz", [])]⟩ "t" "1" [] rfl

/-- C9: the cache key joins task_name, cache_version and the input digest
with hyphens and no escaping, so the distinct identities (a-b, c) and
(a, b-c) collide on every input map. -/
theorem c9_cache_key_not_injective (m : LiteralMap) :
    _calculate_cache_key "a-b" "c" m = _calculate_cache_key "a" "b-c" m
    ∧ ("a-b", "c") ≠ ("a", "b-c") := by
  constructor
  · show "a-b" ++ "-" ++ "c" ++ "-" ++ ProtoJoblibHasher_hash (placeEntries m)
      = "a" ++ "-" ++ "b-c" ++ "-" ++ ProtoJoblibHasher_hash (placeEntries m)
    have hp : "a-b" ++ "-" ++ "c" ++ "-" = "a" ++ "-" ++ "b-c" ++ "-" := by decide
    exact congrArg (fun z => z ++ ProtoJoblibHasher_hash (placeEntries m)) hp
  · decide

/-- The task state enumeration of the agent protocol
(flyteidl.admin.agent_pb2.State). -/
inductive State where
  | RETRYABLE_FAILURE
  | PERMANENT_FAILURE
  | PENDING
  | RUNNING
  | SUCCEEDED
deriving DecidableEq

/-- Modelled from the spec: is_terminal_state (flytekit.extend.backend.utils,
whose source is not part of this snapshot) recognizes the terminal states,
which the spec fixes as success or failure; the failure states of the
protocol are the retryable and permanent failures. -/
def is_terminal_state : State → Bool
  | .SUCCEEDED => true
  | .RETRYABLE_FAILURE => true
  | .PERMANENT_FAILURE => true
  | _ => false

/-- The resource part of an agent response: state, output literals and the
terminal message. -/
structure Resource where
  state : State
  outputs : LiteralMap
  message : String

/-- GetTaskResponse: the response to one poll, carrying a resource. -/
structure GetTaskResponse where
  resource : Resource

/-- CreateTaskResponse: the create response either carries a resource
(synchronous backends that already completed, HasField resource) or a
resource_meta handle for later polling. -/
inductive CreateTaskResponse where
  | resource (r : Resource)
  | resource_meta (meta : String)

/-- The agent capability as the mixin sees it: whether it is asynchronous,
the response to the create call (which may depend on the output prefix
passed to it), and the response to the n-th get call (counted from 0). -/
structure Agent where
  asynchronous : Bool
  create_response : String → CreateTaskResponse
  get_response : Nat → GetTaskResponse

/-- Observable events of the _get poll loop: the one-second sleep at the
top of each iteration, and the i-th call to the agent get operation. -/
inductive PollEvent where
  | sleep_one_second
  | get_call (i : Nat)
deriving DecidableEq

/-- The while-loop of AsyncAgentExecutorMixin._get: starting from a
non-terminal state, each iteration sleeps one second, issues one get call,
and re-checks the returned state; the loop ends when the returned state is
terminal. The fuel argument bounds the number of iterations so the model is
total; i is the index of the next get call. Returns the event trace and the
final response. -/
def pollFrom (agent : Agent) : Nat → Nat → Option (List PollEvent × GetTaskResponse)
  | 0, _ => none
  | fuel + 1, i =>
    let res := agent.get_response i
    if is_terminal_state res.resource.state then
      some ([PollEvent.sleep_one_second, PollEvent.get_call i], res)
    else
      match pollFrom agent fuel (i + 1) with
      | none => none
      | some (tr, r) => some (PollEvent.sleep_one_second :: PollEvent.get_call i :: tr, r)

/-- Embeds AsyncAgentExecutorMixin._get: the poll loop started with
state = RUNNING (non-terminal), so the first get call always happens. -/
def _get (agent : Agent) (fuel : Nat) : Option (List PollEvent × GetTaskResponse) :=
  pollFrom agent fuel 0

/-- The environment of one execute call: the task name, the declared output
names of the task interface, the random remote output prefix chosen at the
start of execute, the agent, the contents of remote storage by path, and
the poll-loop fuel. -/
structure ExecEnv where
  task_name : String
  interface_outputs : List String
  outputPrefix : String
  agent : Agent
  remote_file : String → LiteralMap
  fuel : Nat

/-- The outcome of execute: outputs returned to the caller together with
the list of staged files read, a raised FlyteUserException message, or
exhaustion of the poll-loop fuel. -/
inductive ExecOutcome where
  | ok (outputs : LiteralMap) (reads : List String)
  | user_error (msg : String) (reads : List String)
  | fuel_exhausted

/-- Embeds AsyncAgentExecutorMixin.execute: create the task; if the
response carries a resource, raise unless the state is SUCCEEDED and return
its outputs; otherwise poll to a terminal response, raise unless SUCCEEDED,
and if the task interface declares outputs but the response carries zero
output literals, read the outputs from the staging path
outputPrefix/output/outputs.pb, else return the response outputs. -/
def execute (env : ExecEnv) : ExecOutcome :=
  match env.agent.create_response env.outputPrefix with
  | .resource r =>
    if r.state ≠ State.SUCCEEDED then
      .user_error ("Failed to run the task " ++ env.task_name) []
    else .ok r.outputs []
  | .resource_meta _ =>
    match _get env.agent env.fuel with
    | none => .fuel_exhausted
    | some (_, res) =>
      if res.resource.state ≠ State.SUCCEEDED then
        .user_error ("Failed to run the task " ++ env.task_name) []
      else if env.interface_outputs ≠ [] ∧ res.resource.outputs.length = 0 then
        .ok (env.remote_file (env.outputPrefix ++ "/output/outputs.pb"))
          [env.outputPrefix ++ "/output/outputs.pb"]
      else .ok res.resource.outputs []

/-- The per-execution cancellation state of the mixin: the _clean_up_task
slot (none until a cleanup delete has been scheduled; when scheduled it
remembers the resource_meta being deleted), the number of delete calls
issued against the agent, and the recorded sys.exit status, if any. -/
structure SignalState where
  clean_up_task : Option String
  delete_calls : Nat
  exit_code : Option Nat

/-- Embeds AsyncAgentExecutorMixin.signal_handler: for an asynchronous
agent, schedule an async_delete only if no cleanup task exists yet;
for a synchronous agent, issue the delete inline and exit with status 1. -/
def signal_handler (asynchronous : Bool) (resource_meta : String)
    (s : SignalState) : SignalState :=
  if asynchronous then
    if s.clean_up_task.isNone then
      { s with clean_up_task := some resource_meta, delete_calls := s.delete_calls + 1 }
    else s
  else
    { s with delete_calls := s.delete_calls + 1, exit_code := some 1 }

/-- A Python value held in the kwargs dictionary passed to execute: either
a native value or an already converted Literal. -/
inductive PyObj where
  | native (value : String)
  | literal (l : Literal)

/-- Embeds the input conversion of AsyncAgentExecutorMixin._create, seen
from the caller: literals = inputs or a fresh dict, so for a non-empty
inputs dictionary the loop rebinds every key of the caller-supplied
dictionary itself to the converted Literal; for an empty (falsy) inputs
dictionary a fresh dict is used and the caller sees no change. The result
is the contents of the caller-supplied dictionary after _create. -/
def caller_inputs_after_create (to_literal : PyObj → Literal)
    (inputs : List (String × PyObj)) : List (String × PyObj) :=
  if inputs.isEmpty then inputs
  else inputs.map fun kv => (kv.1, PyObj.literal (to_literal kv.2))

theorem pollFrom_run (agent : Agent) : ∀ (N start fuel : Nat), N < fuel →
    (∀ j, j < N → (agent.get_response (start + j)).resource.state = State.RUNNING) →
    is_terminal_state (agent.get_response (start + N)).resource.state = true →
    pollFrom agent fuel start =
      some ((List.range' start (N + 1)).flatMap
              (fun i => [PollEvent.sleep_one_second, PollEvent.get_call i]),
            agent.get_response (start + N))
  | N, start, 0, hf, _, _ => absurd hf (Nat.not_lt_zero N)
  | 0, start, fuel + 1, _, _, hterm => by
    rw [Nat.add_zero] at hterm
    simp [pollFrom, hterm, List.range'_one]
  | N + 1, start, fuel + 1, hf, hrun, hterm => by
    have hr0 : (agent.get_response start).resource.state = State.RUNNING := by
      have h0 := hrun 0 (Nat.succ_pos N)
      rwa [Nat.add_zero] at h0
    have hrun2 : ∀ j, j < N →
        (agent.get_response (start + 1 + j)).resource.state = State.RUNNING := by
      intro j hj
      have hsj := hrun (j + 1) (by omega)
      have he : start + (j + 1) = start + 1 + j := by omega
      rwa [he] at hsj
    have hterm2 :
        is_terminal_state (agent.get_response (start + 1 + N)).resource.state = true := by
      have he : start + 1 + N = start + (N + 1) := by omega
      rw [he]
      exact hterm
    have ih := pollFrom_run agent N (start + 1) fuel (by omega) hrun2 hterm2
    have he : start + 1 + N = start + (N + 1) := by omega
    rw [he] at ih
    simp only [pollFrom, hr0]
    rw [ih]
    simp [is_terminal_state, List.range'_succ]

/-- C4: against a backend whose get returns RUNNING on its first N calls
and SUCCEEDED on call N, the poll loop sleeps one second before each get
call, issues exactly the get calls 0 .. N (N+1 calls, none after the
terminal response), and returns the terminal response. -/
theorem c4_poll_until_terminal (agent : Agent) (N fuel : Nat)
    (hrun : ∀ i, i < N → (agent.get_response i).resource.state = State.RUNNING)
    (hsucc : (agent.get_response N).resource.state = State.SUCCEEDED)
    (hfuel : N < fuel) :
    _get agent fuel =
      some ((List.range (N + 1)).flatMap
              (fun i => [PollEvent.sleep_one_second, PollEvent.get_call i]),
            agent.get_response N) := by
  have hrun0 : ∀ j, j < N →
      (agent.get_response (0 + j)).resource.state = State.RUNNING := by
    intro j hj
    rw [Nat.zero_add]
    exact hrun j hj
  have hterm0 : is_terminal_state (agent.get_response (0 + N)).resource.state = true := by
    rw [Nat.zero_add, hsucc]
    rfl
  have h := pollFrom_run agent N 0 fuel hfuel hrun0 hterm0
  rw [Nat.zero_add] at h
  rw [_get, h, List.range_eq_range']

/-- C4 witness: a backend that is RUNNING on calls 0 and 1 and SUCCEEDED on
call 2 is polled exactly three times with a sleep before each poll. -/
theorem c4_poll_until_terminal_witness :
    _get
      { asynchronous := true
        create_response := fun _ => CreateTaskResponse.resource_meta "m"
        get_response := fun i =>
          if i < 2 then { resource := { state := State.RUNNING, outputs := [], message := "" } }
          else { resource := { state := State.SUCCEEDED, outputs := [], message := "done" } } }
      5 =
      some ([PollEvent.sleep_one_second, PollEvent.get_call 0,
             PollEvent.sleep_one_second, PollEvent.get_call 1,
             PollEvent.sleep_one_second, PollEvent.get_call 2],
            { resource := { state := State.SUCCEEDED, outputs := [], message := "done" } }) :=
  c4_poll_until_terminal
    { asynchronous := true
      create_response := fun _ => CreateTaskResponse.resource_meta "m"
      get_response := fun i =>
        if i < 2 then { resource := { state := State.RUNNING, outputs := [], message := "" } }
        else { resource := { state := State.SUCCEEDED, outputs := [], message := "done" } } }
    2 5 (by decide) (by decide) (by decide)

/-- C2: when create returned a handle, the final poll response is terminal
SUCCEEDED, the task interface declares at least one output, and the
response carries zero output literals, execute reads the staging path
outputPrefix/output/outputs.pb and returns its contents. -/
theorem c2_output_fallback (env : ExecEnv) (meta : String)
    (tr : List PollEvent) (res : GetTaskResponse)
    (hc : env.agent.create_response env.outputPrefix = CreateTaskResponse.resource_meta meta)
    (hg : _get env.agent env.fuel = some (tr, res))
    (hs : res.resource.state = State.SUCCEEDED)
    (hio : env.interface_outputs ≠ [])
    (ho : res.resource.outputs = []) :
    execute env =
      ExecOutcome.ok (env.remote_file (env.outputPrefix ++ "/output/outputs.pb"))
        [env.outputPrefix ++ "/output/outputs.pb"] := by
  unfold execute
  rw [hc, hg]
  simp [hs, hio, ho]

/-- C2 witness: an asynchronous backend whose terminal success response has
no output literals while the interface declares two outputs makes execute
return the two staged outputs. -/
theorem c2_output_fallback_witness :
    execute
      { task_name := "t"
        interface_outputs := ["o1", "o2"]
        outputPrefix := "pre"
        agent :=
          { asynchronous := true
            create_response := fun _ => CreateTaskResponse.resource_meta "m"
            get_response := fun _ =>
              { resource := { state := State.SUCCEEDED, outputs := [], message := "" } } }
        remote_file := fun p =>
          if p = "pre/output/outputs.pb" then
            [("o1", Literal.scalar (ScalarValue.prim "1") none),
             ("o2", Literal.scalar (ScalarValue.prim "2") none)]
          else []
        fuel := 3 } =
      ExecOutcome.ok
        [("o1", Literal.scalar (ScalarValue.prim "1") none),
         ("o2", Literal.scalar (ScalarValue.prim "2") none)]
        ["pre/output/outputs.pb"] := by
  have h := c2_output_fallback
    { task_name := "t"
      interface_outputs := ["o1", "o2"]
      outputPrefix := "pre"
      agent :=
        { asynchronous := true
          create_response := fun _ => CreateTaskResponse.resource_meta "m"
          get_response := fun _ =>
            { resource := { state := State.SUCCEEDED, outputs := [], message := "" } } }
      remote_file := fun p =>
        if p = "pre/output/outputs.pb" then
          [("o1", Literal.scalar (ScalarValue.prim "1") none),
           ("o2", Literal.scalar (ScalarValue.prim "2") none)]
        else []
      fuel := 3 }
    "m" [PollEvent.sleep_one_second, PollEvent.get_call 0]
    { resource := { state := State.SUCCEEDED, outputs := [], message := "" } }
    rfl rfl rfl (by simp) rfl
  simpa using h

/-- C5: whenever the terminal outcome is not SUCCEEDED, whether it came in
the create response or from the final poll, execute raises the
FlyteUserException naming the task, reads no staged file and returns no
outputs. -/
theorem c5_failure_raises (env : ExecEnv)
    (h : (∃ r, env.agent.create_response env.outputPrefix = CreateTaskResponse.resource r
            ∧ r.state ≠ State.SUCCEEDED)
       ∨ (∃ meta tr res,
            env.agent.create_response env.outputPrefix = CreateTaskResponse.resource_meta meta
            ∧ _get env.agent env.fuel = some (tr, res)
            ∧ res.resource.state ≠ State.SUCCEEDED)) :
    execute env = ExecOutcome.user_error ("Failed to run the task " ++ env.task_name) [] := by
  unfold execute
  rcases h with ⟨r, hc, hs⟩ | ⟨meta, tr, res, hc, hg, hs⟩
  · rw [hc]
    simp [hs]
  · rw [hc, hg]
    simp [hs]

/-- C5 witness: a synchronous backend answering with a PERMANENT_FAILURE
resource makes execute report the failure naming the task. -/
theorem c5_failure_raises_witness :
    execute
      { task_name := "t"
        interface_outputs := ["o1"]
        outputPrefix := "pre"
        agent :=
          { asynchronous := false
            create_response := fun _ => CreateTaskResponse.resource
              { state := State.PERMANENT_FAILURE, outputs := [], message := "boom" }
            get_response := fun _ =>
              { resource := { state := State.RUNNING, outputs := [], message := "" } } }
        remote_file := fun _ => []
        fuel := 3 } =
      ExecOutcome.user_error "Failed to run the task t" [] := by
  have h := c5_failure_raises
    { task_name := "t"
      interface_outputs := ["o1"]
      outputPrefix := "pre"
      agent :=
        { asynchronous := false
          create_response := fun _ => CreateTaskResponse.resource
            { state := State.PERMANENT_FAILURE, outputs := [], message := "boom" }
          get_response := fun _ =>
            { resource := { state := State.RUNNING, outputs := [], message := "" } } }
      remote_file := fun _ => []
      fuel := 3 }
    (Or.inl ⟨{ state := State.PERMANENT_FAILURE, outputs := [], message := "boom" },
      rfl, by decide⟩)
  simpa using h

theorem signal_handler_async_fixed (meta : String) (s : SignalState)
    (h : s.clean_up_task.isNone = false) :
    signal_handler true meta s = s := by
  simp [signal_handler, h]

/-- C3: from a fresh handle (no cleanup task scheduled yet), any positive
number of interrupts delivered to an asynchronous execution schedules
exactly one delete call against the backend; for a synchronous backend each
interrupt issues the delete inline and exits the process with status 1
(non-zero). -/
theorem c3_cancellation_idempotent (meta : String) (s : SignalState) (n : Nat)
    (hfresh : s.clean_up_task = none) (hn : 1 ≤ n) :
    ((signal_handler true meta)^[n] s).delete_calls = s.delete_calls + 1
    ∧ ((signal_handler true meta)^[n] s).clean_up_task = some meta
    ∧ (signal_handler false meta s).delete_calls = s.delete_calls + 1
    ∧ (signal_handler false meta s).exit_code = some 1 := by
  obtain ⟨k, rfl⟩ : ∃ k, n = k + 1 := ⟨n - 1, by omega⟩
  have h1 : signal_handler true meta s =
      { s with clean_up_task := some meta, delete_calls := s.delete_calls + 1 } := by
    simp [signal_handler, hfresh]
  have hfix : ∀ j, (signal_handler true meta)^[j]
      { s with clean_up_task := some meta, delete_calls := s.delete_calls + 1 } =
      { s with clean_up_task := some meta, delete_calls := s.delete_calls + 1 } := by
    intro j
    apply Function.iterate_fixed
    apply signal_handler_async_fixed
    rfl
  constructor
  · rw [Function.iterate_succ_apply, h1, hfix k]
  refine ⟨?_, ?_, ?_⟩
  · rw [Function.iterate_succ_apply, h1, hfix k]
  · simp [signal_handler]
  · simp [signal_handler]

/-- C3 witness: three rapid interrupts on a fresh asynchronous execution
issue exactly one delete; a synchronous interrupt deletes and exits 1. -/
theorem c3_cancellation_idempotent_witness :
    ((signal_handler true "m")^[3] ⟨none, 0, none⟩).delete_calls = 0 + 1
    ∧ ((signal_handler true "m")^[3] ⟨none, 0, none⟩).clean_up_task = some "m"
    ∧ (signal_handler false "m" ⟨none, 0, none⟩).delete_calls = 0 + 1
    ∧ (signal_handler false "m" ⟨none, 0, none⟩).exit_code = some 1 :=
  c3_cancellation_idempotent "m" ⟨none, 0, none⟩ 3 rfl (by decide)

theorem lookup_map_literal (to_literal : PyObj → Literal) :
    ∀ (l : List (String × PyObj)) (k : String) (v : PyObj),
      List.lookup k (l.map fun kv => (kv.1, PyObj.literal (to_literal kv.2))) = some v →
      ∃ w, v = PyObj.literal w
  | [], k, v, h => by simp at h
  | (k1, v1) :: t, k, v, h => by
    by_cases hk : (k == k1) = true
    · rw [List.map_cons] at h
      simp [List.lookup, hk] at h
      exact ⟨to_literal v1, h.symm⟩
    · rw [List.map_cons] at h
      simp only [List.lookup, hk] at h
      exact lookup_map_literal to_literal t k v h

/-- C10: for a non-empty inputs dictionary, _create rebinds every entry of
the caller-supplied dictionary to its converted Literal (the locals alias
the same dict), so after the call every value the caller can look up is a
converted Literal, not an original native value. -/
theorem c10_create_mutates_inputs (to_literal : PyObj → Literal)
    (inputs : List (String × PyObj)) (h : inputs ≠ []) :
    caller_inputs_after_create to_literal inputs
      = inputs.map (fun kv => (kv.1, PyObj.literal (to_literal kv.2)))
    ∧ ∀ (k : String) (v : PyObj),
        List.lookup k (caller_inputs_after_create to_literal inputs) = some v →
        ∃ w, v = PyObj.literal w := by
  have h1 : caller_inputs_after_create to_literal inputs
      = inputs.map (fun kv => (kv.1, PyObj.literal (to_literal kv.2))) := by
    unfold caller_inputs_after_create
    cases inputs with
    | nil => exact absurd rfl h
    | cons a t => simp
  refine ⟨h1, ?_⟩
  intro k v hv
  rw [h1] at hv
  exact lookup_map_literal to_literal inputs k v hv

/-- C10 witness: a one-entry kwargs dictionary holding a native value holds
only the converted Literal after the call. -/
theorem c10_create_mutates_inputs_witness :
    caller_inputs_after_create (fun _ => Literal.scalar (ScalarValue.prim "3") none)
        [("x", PyObj.native "3")]
      = [("x", PyObj.literal (Literal.scalar (ScalarValue.prim "3") none))]
    ∧ ∀ (k : String) (v : PyObj),
        List.lookup k
            (caller_inputs_after_create (fun _ => Literal.scalar (ScalarValue.prim "3") none)
              [("x", PyObj.native "3")]) = some v →
        ∃ w, v = PyObj.literal w :=
  c10_create_mutates_inputs (fun _ => Literal.scalar (ScalarValue.prim "3") none)
    [("x", PyObj.native "3")] (List.cons_ne_nil _ _)

end Flytekit
